import Mathlib

/-!
Shallow embedding of the SnapZen Pro indexing and snap-matching core
(src/indexer.py, src/snap_tool.py, src/plugin.py).

Conventions of the embedding:
* Coordinates are modelled as rationals; the behaviour under scrutiny
  (rounding to 6 decimal digits, squared distances, tolerance
  comparisons) is exact arithmetic at the precision the claims use.
* Python exceptions from the external QGIS objects are modelled as
  Except String values on the fields that the code probes; a method the
  code wraps in try/except has its failure branch modelled, a method
  that cannot fail for the inputs the code passes (e.g.
  QgsSpatialIndex.insertFeature on a valid point feature) is total.
* Python dicts keep insertion order; they are modelled as association
  lists to which entries are appended.
-/

namespace SnapZen

/-- A 2D point (QgsPointXY) with exact rational coordinates. -/
structure PointXY where
  x : ℚ
  y : ℚ
deriving DecidableEq, Repr

/-- QgsPointXY.sqrDist: squared euclidean distance. -/
def sqrDist (p q : PointXY) : ℚ :=
  (p.x - q.x) * (p.x - q.x) + (p.y - q.y) * (p.y - q.y)

/-- Python round-half-to-even of a rational to the nearest integer. -/
def roundHalfEven (q : ℚ) : ℤ :=
  let f : ℤ := ⌊q⌋
  let frac : ℚ := q - f
  if frac < 1/2 then f
  else if 1/2 < frac then f + 1
  else if f % 2 = 0 then f else f + 1

/-- Python round(x, 6): round to 6 decimal digits, ties to even. -/
def round6 (q : ℚ) : ℚ :=
  (roundHalfEven (q * 1000000) : ℚ) / 1000000

/-- CentroidIndexTask._point_key: the dedup key of a point. -/
def pointKey (p : PointXY) : ℚ × ℚ :=
  (round6 p.x, round6 p.y)

/-- The spatial index (QgsSpatialIndex) is external; the code only
inserts integer-id point features and asks for nearest neighbours, so it
is modelled as the list of inserted (id, point) entries. -/
abbrev SpatialIndex := List (ℕ × PointXY)

/-- IndexBundle: container matching feature ids with cached points.
point_index is Optional (None until a run populates it); id_to_point is
an insertion-ordered dict. -/
structure IndexBundle where
  point_index : Option SpatialIndex := none
  id_to_point : List (ℕ × PointXY) := []
deriving DecidableEq, Repr

/-- IndexBundle.centroid_index property getter: backwards compatibility
alias returning point_index. -/
def IndexBundle.centroid_index (b : IndexBundle) : Option SpatialIndex :=
  b.point_index

/-- IndexBundle.centroid_index property setter: assigns point_index. -/
def IndexBundle.setCentroidIndex (b : IndexBundle) (v : Option SpatialIndex) : IndexBundle :=
  { b with point_index := v }

/-- IndexBundle.clear. -/
def IndexBundle.clear (_b : IndexBundle) : IndexBundle :=
  { point_index := none, id_to_point := [] }

/-- IndexBundle.is_empty. -/
def IndexBundle.isEmptyB (b : IndexBundle) : Bool :=
  b.id_to_point.isEmpty

/-- The bundle a fresh CentroidIndexTask holds after __init__. -/
def emptyBundle : IndexBundle := {}

/-- The mutable state threaded through CentroidIndexTask.run:
used_keys, the id counter (itertools.count), the generated
QgsSpatialIndex and the point_lookup dict. -/
structure BuildState where
  usedKeys : List (ℚ × ℚ)
  counter : ℕ
  genIndex : SpatialIndex
  lookup : List (ℕ × PointXY)
deriving DecidableEq, Repr

/-- The state run() starts from. -/
def initState : BuildState := ⟨[], 0, [], []⟩

/-- CentroidIndexTask._remember_point: dedup by rounded key, assign the
next id, insert into the spatial index and the id lookup.  (The
insertFeature try/except branch is not taken for valid point features,
so insertion is modelled as total.) -/
def rememberPoint (st : BuildState) (point : Option PointXY) : BuildState :=
  match point with
  | none => st
  | some p =>
    let key := pointKey p
    if key ∈ st.usedKeys then st
    else
      { usedKeys := key :: st.usedKeys
        counter := st.counter + 1
        genIndex := st.genIndex ++ [(st.counter, p)]
        lookup := st.lookup ++ [(st.counter, p)] }

/-- Folding _remember_point over a stream of accepted points, in
extraction order. -/
def buildGo (st : BuildState) : List PointXY → BuildState
  | [] => st
  | p :: rest => buildGo (rememberPoint st (some p)) rest

/-- The build state after a run that extracted exactly the points ps. -/
def buildFromPoints (ps : List PointXY) : BuildState :=
  buildGo initState ps

/-!  Snap tool (src/snap_tool.py).  The settings object is the dict
returned by SettingsDock.get_settings; each recognized key is modelled
as an Option field (none = key absent, .get falls back to the coded
default).  A dict holding none of the recognized keys behaves like the
empty dict in _use_fallback: both make every lookup return its default,
so dict truthiness is modelled as "some recognized key present". -/

structure SnapSettings where
  tolerance_value : Option ℚ := none
  tolerance_units : Option String := none
  debounce_ms : Option ℤ := none
  snap_vertices : Option Bool := none
  snap_segments : Option Bool := none
  use_fallback_index : Option Bool := none
  build_fallback_index : Option Bool := none
  snap_centroids : Option Bool := none
  build_centroid_index : Option Bool := none
deriving DecidableEq, Repr

/-- Python truthiness of the settings dict (see note above). -/
def SnapSettings.truthy (s : SnapSettings) : Bool :=
  s.tolerance_value.isSome || s.tolerance_units.isSome || s.debounce_ms.isSome ||
  s.snap_vertices.isSome || s.snap_segments.isSome || s.use_fallback_index.isSome ||
  s.build_fallback_index.isSome || s.snap_centroids.isSome || s.build_centroid_index.isSome

/-- SnapZenProTool._use_fallback. -/
def useFallback (s : SnapSettings) : Bool :=
  if ¬ s.truthy then false
  else s.use_fallback_index.getD (s.snap_centroids.getD false)

/-- settings.get of tolerance_value with the coded default 12.0. -/
def toleranceValue (s : SnapSettings) : ℚ :=
  s.tolerance_value.getD 12

/-- settings.get of tolerance_units with the coded default of px. -/
def toleranceUnits (s : SnapSettings) : String :=
  s.tolerance_units.getD "px"

/-- SnapZenProTool._mu_tolerance: tolerance converted to map units. -/
def muTolerance (s : SnapSettings) (mapUnitsPerPixel : ℚ) : ℚ :=
  if toleranceUnits s = "px" then toleranceValue s * mapUnitsPerPixel
  else toleranceValue s

/-- QgsSnappingConfig snap type values used by the tool. -/
inductive SnapType where
  | vertexAndSegment
  | vertex
  | segment
deriving DecidableEq, Repr

/-- The snap type chosen by SnapZenProTool._configure_local_snapping
from the snap_vertices / snap_segments settings (defaults true). -/
def configuredSnapType (s : SnapSettings) : SnapType :=
  let tVert := s.snap_vertices.getD true
  let tSegm := s.snap_segments.getD true
  if tVert && tSegm then .vertexAndSegment
  else if tVert then .vertex
  else if tSegm then .segment
  else .vertex

/-- QgsSpatialIndex.nearestNeighbor with k = 1: the id of an entry with
minimal squared distance to the query point (empty list when the index
is empty). -/
def nearestNeighbor (idx : SpatialIndex) (q : PointXY) : List ℕ :=
  match idx with
  | [] => []
  | e :: rest =>
    [(rest.foldl (fun best cur =>
        if sqrDist cur.2 q < sqrDist best.2 q then cur else best) e).1]

/-- Dict.get on id_to_point. -/
def lookupId (m : List (ℕ × PointXY)) (i : ℕ) : Option PointXY :=
  (m.find? (fun e => e.1 = i)).map (·.2)

/-- The externally provided pieces a single _do_snap invocation sees:
the primary engine's answer (error = snapToMap raised, ok none = match
invalid, ok some p = valid match at p) and the canvas scale factor. -/
structure SnapEnv where
  primaryResult : Except String (Option PointXY)
  mapUnitsPerPixel : ℚ

/-- The observable outcome of a snap resolution: the vertex marker is
either shown at a point or hidden. -/
inductive SnapOutcome where
  | showMarker (p : PointXY)
  | hide
deriving DecidableEq, Repr

/-- The bundle_index local of _do_snap: point_index, falling back to
the centroid_index alias, from a possibly absent bundle. -/
def bundleIndexOf (bundle : Option IndexBundle) : Option SpatialIndex :=
  match bundle with
  | none => none
  | some b => b.point_index.or b.centroid_index

/-- The body of _do_snap's fallback query once the index idx is
consulted: the nearest-neighbour id (if any) is looked up in
id_to_point and the candidate accepted iff its squared distance to the
pointer is at most the squared effective tolerance; every other path
falls through to marker.hide(). -/
def fallbackLookup (s : SnapSettings) (bundle : Option IndexBundle)
    (idx : SpatialIndex) (mupp : ℚ) (mapPt : PointXY) : SnapOutcome :=
  match nearestNeighbor idx mapPt with
  | [] => .hide
  | i :: _ =>
    let muTol := muTolerance s mupp
    match lookupId (match bundle with | some b => b.id_to_point | none => []) i with
    | none => .hide
    | some candidate =>
      if sqrDist candidate mapPt ≤ muTol * muTol then .showMarker candidate
      else .hide

/-- SnapZenProTool._do_snap with a pointer position (map_pt), returning
the marker outcome (show at a point / hide) and whether the fallback
index was queried (nearestNeighbor called).  The tool holds
Optional[IndexBundle]. -/
def doSnap (s : SnapSettings) (bundle : Option IndexBundle) (env : SnapEnv)
    (mapPt : PointXY) : SnapOutcome × Bool :=
  match env.primaryResult with
  | .ok (some p) => (.showMarker p, false)
  | _ =>
    if useFallback s ∧ (bundleIndexOf bundle).isSome then
      match bundleIndexOf bundle with
      | none => (.hide, true)
      | some idx => (fallbackLookup s bundle idx env.mapUnitsPerPixel mapPt, true)
    else (.hide, false)

/-!  Geometry model (the QgsGeometry surface the indexer touches).
Each accessor the code calls is a field; Except.error models the call
raising.  vertices() is a generator whose loop body may raise after
yielding a prefix, modelled as the yielded prefix plus a raised flag. -/

/-- QgsWkbTypes.geometryType buckets relevant to the code. -/
inductive WkbKind where
  | noGeometry
  | pointGeom
  | lineGeom
  | polygonGeom
  | unknownGeom
deriving DecidableEq, Repr

/-- The QgsGeometry returned by centroid(): the code only probes its
emptiness and asPoint. -/
structure CentroidGeom where
  isEmptyC : Bool
  asPointC : Except String PointXY
deriving Repr

structure Geometry where
  isEmptyG : Bool
  /-- geom.vertices() walk: yielded points, and whether the walk raised
  (after yielding them), triggering the fallback extraction. -/
  verticesW : List PointXY × Bool
  /-- geom.centroid() (may raise). -/
  centroidC : Except String CentroidGeom
  /-- geom.wkbType() fed to QgsWkbTypes.geometryType (may raise). -/
  gkind : Except String WkbKind
  asPointA : Except String PointXY
  asMultiPointA : Except String (List PointXY)
  asPolylineA : Except String (List PointXY)
  asMultiPolylineA : Except String (List (List PointXY))
  asPolygonA : Except String (List (List PointXY))
  asMultiPolygonA : Except String (List (List (List PointXY)))

/-- CentroidIndexTask._safe_points(asPoint, asMultiPoint): first
factory that does not raise wins (its walked points, even if none). -/
def safePoints (g : Geometry) : List PointXY :=
  match g.asPointA with
  | .ok p => [p]
  | .error _ =>
    match g.asMultiPointA with
    | .ok ps => ps
    | .error _ => []

/-- CentroidIndexTask._safe_sequences(asPolyline, asMultiPolyline):
first factory that does not raise and yields non-falsy data wins;
_walk_points flattens the nesting. -/
def safeSeqLine (g : Geometry) : List PointXY :=
  match g.asPolylineA with
  | .ok ps =>
    if ps.isEmpty then
      match g.asMultiPolylineA with
      | .ok pss => if pss.isEmpty then [] else pss.flatten
      | .error _ => []
    else ps
  | .error _ =>
    match g.asMultiPolylineA with
    | .ok pss => if pss.isEmpty then [] else pss.flatten
    | .error _ => []

/-- CentroidIndexTask._safe_sequences(asPolygon, asMultiPolygon). -/
def safeSeqPolygon (g : Geometry) : List PointXY :=
  match g.asPolygonA with
  | .ok rs =>
    if rs.isEmpty then
      match g.asMultiPolygonA with
      | .ok rss => if rss.isEmpty then [] else rss.flatten.flatten
      | .error _ => []
    else rs.flatten
  | .error _ =>
    match g.asMultiPolygonA with
    | .ok rss => if rss.isEmpty then [] else rss.flatten.flatten
    | .error _ => []

/-- CentroidIndexTask._fallback_vertices: kind-specific extraction used
when the primary vertex walk raised. -/
def fallbackVertices (g : Geometry) : List PointXY :=
  if g.isEmptyG then []
  else
    let kind := match g.gkind with
      | .ok k => k
      | .error _ => WkbKind.unknownGeom
    match kind with
    | .pointGeom => safePoints g
    | .lineGeom => safeSeqLine g
    | .polygonGeom => safeSeqPolygon g
    | _ => safePoints g

/-- CentroidIndexTask._geometry_vertices: the vertices() walk; if it
raised mid-way the already-yielded prefix is followed by the fallback
extraction. -/
def geometryVertices (g : Geometry) : List PointXY :=
  g.verticesW.1 ++ (if g.verticesW.2 then fallbackVertices g else [])

/-- CentroidIndexTask._geometry_centroid. -/
def geometryCentroid (g : Geometry) : Option PointXY :=
  match g.centroidC with
  | .error _ => none
  | .ok cg =>
    if ¬ cg.isEmptyC then
      match cg.asPointC with
      | .ok p => some p
      | .error _ => none
    else none

/-- CentroidIndexTask._iter_points: all vertices, plus the centroid
when the layer's geometry kind is polygon. -/
def iterPoints (g : Geometry) (layerKind : WkbKind) : List PointXY :=
  geometryVertices g ++
    (if layerKind = .polygonGeom then (geometryCentroid g).toList else [])

/-!  The indexing task run (CentroidIndexTask.run).  Externals:
layers, canvas, coordinate transform service.  Cooperative cancellation
is a poll-checked flag: isCanceled() calls are numbered 0,1,2,... in
the order run() makes them, and cancelAt = some c makes every poll from
number c on report canceled (none = never canceled). -/

/-- A coordinate reference system: an identifier plus validity. -/
structure CRS where
  cid : ℕ
  validCrs : Bool
deriving DecidableEq, Repr

/-- A constructed coordinate transform: per-point application may fail
(the point is then dropped by _transform_point). -/
def Transform := PointXY → Option PointXY

/-- A QgsFeature as the code reads it: its geometry (None possible). -/
structure Feature where
  geom : Option Geometry

/-- A project layer as the code probes it.  Fields wrapped in Except
model the probe raising.  features is the stream getFeatures yields for
the request run() builds: the features produced, then optionally a
terminal exception (covering both getFeatures itself raising and any
raise inside the per-feature loop body after those features). -/
structure Layer where
  lid : String
  nameL : String
  isVector : Bool
  isValidL : Bool
  wkbTypeL : Except String WkbKind
  crsL : Except String CRS
  features : List Feature × Option String

structure MapSettings where
  destCrs : CRS

structure Canvas where
  visibleLayerIds : List String
  mapSettingsC : Option MapSettings

/-- The environment a run executes in: the project's layers (iteration
order of QgsProject.mapLayers().values()), the canvas, and the
transform service (none = QgsCoordinateTransform construction raised
for that CRS pair). -/
structure TaskEnv where
  projectLayers : List Layer
  canvas : Canvas
  mkTransform : CRS → CRS → Option Transform

/-- CentroidIndexTask._layer_if_candidate (self.only_visible; the
isinstance QgsVectorLayer test; validity; the guarded wkbType probe;
NoGeometry exclusion). -/
def layerIfCandidate (onlyVisible : Bool) (visibleIds : Option (List String))
    (l : Layer) : Bool :=
  if onlyVisible && visibleIds.isSome && !((visibleIds.getD []).contains l.lid) then false
  else if ¬ l.isVector then false
  else if ¬ l.isValidL then false
  else
    match l.wkbTypeL with
    | .error _ => false
    | .ok k => k ≠ .noGeometry

/-- CentroidIndexTask._candidate_layers. -/
def candidateLayers (env : TaskEnv) (onlyVisible : Bool) : List Layer :=
  let visibleIds := if onlyVisible then some env.canvas.visibleLayerIds else none
  env.projectLayers.filter (layerIfCandidate onlyVisible visibleIds)

/-- CentroidIndexTask._prepare_layer_context, minus the feature-request
extent narrowing (which only filters the externally supplied feature
stream and is folded into Layer.features).  The layer.crs() probe is
NOT inside a try block in the source: its failure propagates, hence the
Except result.  Transform construction failure degrades to none. -/
def prepareLayerContext (env : TaskEnv) (l : Layer) (targetCrs : Option CRS) :
    Except String (Option Transform) :=
  match targetCrs with
  | some tc =>
    if tc.validCrs then
      match l.crsL with
      | .error e => .error e
      | .ok lc =>
        if lc ≠ tc then .ok (env.mkTransform lc tc)
        else .ok none
    else .ok none
  | none => .ok none

/-- CentroidIndexTask._transform_point. -/
def transformPoint (tr : Option Transform) (point : Option PointXY) : Option PointXY :=
  match point with
  | none => none
  | some p =>
    match tr with
    | none => some p
    | some t => t p

/-- isCanceled() at poll number n under the cancellation schedule. -/
def polled (cancelAt : Option ℕ) (n : ℕ) : Bool :=
  match cancelAt with
  | some c => c ≤ n
  | none => false

/-- The body of run()'s feature loop for one feature: skip null/empty
geometries, extract, transform, remember. -/
def processFeature (layerKind : WkbKind) (tr : Option Transform)
    (st : BuildState) (f : Feature) : BuildState :=
  match f.geom with
  | none => st
  | some g =>
    if g.isEmptyG then st
    else (iterPoints g layerKind).foldl
      (fun s raw => rememberPoint s (transformPoint tr (some raw))) st

/-- run()'s inner feature loop: poll isCanceled before each feature.
Returns the next poll number and (none on cancellation) the state. -/
def runFeatures (layerKind : WkbKind) (tr : Option Transform) (cancelAt : Option ℕ) :
    List Feature → ℕ → BuildState → ℕ × Option BuildState
  | [], n, st => (n, some st)
  | f :: fs, n, st =>
    if polled cancelAt n then (n + 1, none)
    else runFeatures layerKind tr cancelAt fs (n + 1) (processFeature layerKind tr st f)

/-- run()'s outer layer loop: poll isCanceled before each layer,
prepare the context (whose crs probe may raise, propagating), stream
the features inside a per-layer try (a terminal stream exception is
recorded as name: message and the layer abandoned), and continue.
Result: error e = run raised; ok (n, none) = run returned False
(canceled); ok (n, some (st, errs)) = loop completed. -/
def runLayers (env : TaskEnv) (targetCrs : Option CRS) (cancelAt : Option ℕ) :
    List Layer → ℕ → BuildState → List String →
    Except String (ℕ × Option (BuildState × List String))
  | [], n, st, errs => .ok (n, some (st, errs))
  | l :: rest, n, st, errs =>
    if polled cancelAt n then .ok (n + 1, none)
    else
      match prepareLayerContext env l targetCrs with
      | .error e => .error e
      | .ok tr =>
        let layerKind := match l.wkbTypeL with
          | .ok k => k
          | .error _ => WkbKind.unknownGeom
        match runFeatures layerKind tr cancelAt l.features.1 (n + 1) st with
        | (n', none) => .ok (n', none)
        | (n', some st') =>
          match l.features.2 with
          | some e => runLayers env targetCrs cancelAt rest n' st' (errs ++ [l.nameL ++ ": " ++ e])
          | none => runLayers env targetCrs cancelAt rest n' st' errs

/-- CentroidIndexTask.run.  Returns (as an Except capturing an escaped
exception) the run's boolean result together with the task's
result_bundle and errors fields after the call: on cancellation run
returns False leaving result_bundle as the fresh __init__ bundle and
errors as the initial empty tuple; on completion the bundle holds the
populated index/lookup when any point was collected, else it is
cleared, and the collected error list is stored. -/
def runTask (env : TaskEnv) (onlyVisible : Bool) (cancelAt : Option ℕ) :
    Except String (Bool × IndexBundle × List String) :=
  match runLayers env (env.canvas.mapSettingsC.map (·.destCrs)) cancelAt
      (candidateLayers env onlyVisible) 0 initState [] with
  | .error e => .error e
  | .ok (_, none) => .ok (false, emptyBundle, [])
  | .ok (_, some (st, errs)) =>
    if st.lookup.isEmpty then .ok (true, emptyBundle.clear, errs)
    else .ok (true, { point_index := some st.genIndex, id_to_point := st.lookup }, errs)

/-- SnapZenProPlugin._on_task_complete: the handler adopts the task's
result_bundle unconditionally (the isinstance IndexBundle test always
passes for a CentroidIndexTask).  CentroidIndexTask.finished ignores
its _ok argument and emits completed for canceled runs too, so this
runs after every run, successful or not. -/
def onTaskComplete (_current : IndexBundle) (taskResult : IndexBundle) : IndexBundle :=
  taskResult

/-!  Characterization of the _remember_point fold: the kept entries
are the first occurrences of each rounded key, numbered consecutively
from the starting counter. -/

/-- Pair each list element with consecutive ids starting at n. -/
def enumWith (n : ℕ) : List PointXY → List (ℕ × PointXY)
  | [] => []
  | p :: rest => (n, p) :: enumWith (n + 1) rest

/-- The subsequence of first occurrences of each rounded key, relative
to an already-seen key set. -/
def dedupFirst (seen : List (ℚ × ℚ)) : List PointXY → List PointXY
  | [] => []
  | p :: rest =>
    if pointKey p ∈ seen then dedupFirst seen rest
    else p :: dedupFirst (pointKey p :: seen) rest

theorem enumWith_map_snd (n : ℕ) (l : List PointXY) :
    (enumWith n l).map Prod.snd = l := by
  induction l generalizing n with
  | nil => rfl
  | cons p rest ih => simp [enumWith, ih]

theorem enumWith_map_fst (n : ℕ) (l : List PointXY) :
    (enumWith n l).map Prod.fst = List.range' n l.length := by
  induction l generalizing n with
  | nil => rfl
  | cons p rest ih => simp [enumWith, ih, List.range']

theorem mem_enumWith_of_mem {q : PointXY} {l : List PointXY} (n : ℕ) (h : q ∈ l) :
    ∃ i, (i, q) ∈ enumWith n l := by
  induction l generalizing n with
  | nil => cases h
  | cons p rest ih =>
    rcases List.mem_cons.mp h with rfl | hmem
    · exact ⟨n, List.mem_cons_self _ _⟩
    · obtain ⟨i, hi⟩ := ih (n + 1) hmem
      exact ⟨i, List.mem_cons_of_mem _ hi⟩

theorem buildGo_eq (ps : List PointXY) : ∀ st : BuildState,
    buildGo st ps =
      { usedKeys := (dedupFirst st.usedKeys ps).reverse.map pointKey ++ st.usedKeys
        counter := st.counter + (dedupFirst st.usedKeys ps).length
        genIndex := st.genIndex ++ enumWith st.counter (dedupFirst st.usedKeys ps)
        lookup := st.lookup ++ enumWith st.counter (dedupFirst st.usedKeys ps) } := by
  induction ps with
  | nil => intro st; simp [buildGo, dedupFirst, enumWith]
  | cons p rest ih =>
    intro st
    by_cases h : pointKey p ∈ st.usedKeys
    · have hrem : rememberPoint st (some p) = st := by
        simp [rememberPoint, h]
      have hded : dedupFirst st.usedKeys (p :: rest) = dedupFirst st.usedKeys rest := by
        simp [dedupFirst, h]
      rw [show buildGo st (p :: rest) = buildGo (rememberPoint st (some p)) rest from rfl,
        hrem, hded, ih st]
    · have hrem : rememberPoint st (some p) =
          { usedKeys := pointKey p :: st.usedKeys
            counter := st.counter + 1
            genIndex := st.genIndex ++ [(st.counter, p)]
            lookup := st.lookup ++ [(st.counter, p)] } := by
        simp [rememberPoint, h]
      have hded : dedupFirst st.usedKeys (p :: rest) =
          p :: dedupFirst (pointKey p :: st.usedKeys) rest := by
        simp [dedupFirst, h]
      rw [show buildGo st (p :: rest) = buildGo (rememberPoint st (some p)) rest from rfl,
        hrem, ih, hded]
      simp [enumWith, List.append_assoc]
      omega

theorem buildFromPoints_eq (ps : List PointXY) :
    buildFromPoints ps =
      { usedKeys := (dedupFirst [] ps).reverse.map pointKey
        counter := (dedupFirst [] ps).length
        genIndex := enumWith 0 (dedupFirst [] ps)
        lookup := enumWith 0 (dedupFirst [] ps) } := by
  have h := buildGo_eq ps initState
  simpa [buildFromPoints, initState] using h

theorem dedupFirst_key_not_seen (ps : List PointXY) :
    ∀ seen, ∀ p ∈ dedupFirst seen ps, pointKey p ∉ seen := by
  induction ps with
  | nil => intro seen p hp; cases hp
  | cons a rest ih =>
    intro seen p hp
    by_cases h : pointKey a ∈ seen
    · rw [show dedupFirst seen (a :: rest) = dedupFirst seen rest from by
        simp [dedupFirst, h]] at hp
      exact ih seen p hp
    · rw [show dedupFirst seen (a :: rest) = a :: dedupFirst (pointKey a :: seen) rest from by
        simp [dedupFirst, h]] at hp
      rcases List.mem_cons.mp hp with rfl | hmem
      · exact h
      · intro hcontra
        exact ih (pointKey a :: seen) p hmem (List.mem_cons_of_mem _ hcontra)

theorem dedupFirst_keys_nodup (ps : List PointXY) :
    ∀ seen, ((dedupFirst seen ps).map pointKey).Nodup := by
  induction ps with
  | nil => intro seen; simp [dedupFirst]
  | cons a rest ih =>
    intro seen
    by_cases h : pointKey a ∈ seen
    · rw [show dedupFirst seen (a :: rest) = dedupFirst seen rest from by
        simp [dedupFirst, h]]
      exact ih seen
    · rw [show dedupFirst seen (a :: rest) = a :: dedupFirst (pointKey a :: seen) rest from by
        simp [dedupFirst, h]]
      refine List.nodup_cons.mpr ⟨?_, ih _⟩
      intro hmem
      obtain ⟨q, hq, hkey⟩ := List.mem_map.mp hmem
      exact dedupFirst_key_not_seen rest (pointKey a :: seen) q hq
        (hkey ▸ List.mem_cons_self _ _)

theorem dedupFirst_first_wins (ps : List PointXY) :
    ∀ seen, ∀ p ∈ ps, pointKey p ∉ seen →
      ∃ q ∈ dedupFirst seen ps, pointKey q = pointKey p ∧
        ps.find? (fun r => decide (pointKey r = pointKey p)) = some q := by
  induction ps with
  | nil => intro seen p hp; cases hp
  | cons a rest ih =>
    intro seen p hp hseen
    by_cases hk : pointKey a = pointKey p
    · have ha : pointKey a ∉ seen := by rw [hk]; exact hseen
      rw [show dedupFirst seen (a :: rest) = a :: dedupFirst (pointKey a :: seen) rest from by
        simp [dedupFirst, ha]]
      exact ⟨a, List.mem_cons_self _ _, hk, by simp [List.find?, hk]⟩
    · have hpr : p ∈ rest := by
        rcases List.mem_cons.mp hp with rfl | hmem
        · exact absurd rfl hk
        · exact hmem
      have hfind : (a :: rest).find? (fun r => decide (pointKey r = pointKey p)) =
          rest.find? (fun r => decide (pointKey r = pointKey p)) := by
        simp [List.find?, hk]
      by_cases h : pointKey a ∈ seen
      · rw [show dedupFirst seen (a :: rest) = dedupFirst seen rest from by
          simp [dedupFirst, h]]
        obtain ⟨q, hq, hkey, hf⟩ := ih seen p hpr hseen
        exact ⟨q, hq, hkey, by rw [hfind]; exact hf⟩
      · rw [show dedupFirst seen (a :: rest) = a :: dedupFirst (pointKey a :: seen) rest from by
          simp [dedupFirst, h]]
        have hseen' : pointKey p ∉ pointKey a :: seen := by
          intro hcontra
          rcases List.mem_cons.mp hcontra with heq | hmem
          · exact hk heq.symm
          · exact hseen hmem
        obtain ⟨q, hq, hkey, hf⟩ := ih (pointKey a :: seen) p hpr hseen'
        exact ⟨q, List.mem_cons_of_mem _ hq, hkey, by rw [hfind]; exact hf⟩

/-!  Evaluation lemmas for the rounding arithmetic (the Rat operations
are irreducible, so concrete rounding facts are established through
the floor API rather than by reduction). -/

theorem roundHalfEven_of_lt (q : ℚ) (f : ℤ) (h1 : (f : ℚ) ≤ q) (h2 : q < f + 1/2) :
    roundHalfEven q = f := by
  have hf : ⌊q⌋ = f := by
    rw [Int.floor_eq_iff]
    exact ⟨h1, by linarith⟩
  unfold roundHalfEven
  rw [hf, if_pos (by linarith)]

theorem round6_eval (x : ℚ) (f : ℤ) (h1 : (f : ℚ) ≤ x * 1000000)
    (h2 : x * 1000000 < f + 1/2) :
    round6 x = (f : ℚ) / 1000000 := by
  unfold round6
  rw [roundHalfEven_of_lt (x * 1000000) f h1 h2]

theorem round6_intCast (n : ℤ) : round6 (n : ℚ) = n := by
  rw [round6_eval (n : ℚ) (n * 1000000) (by push_cast [le_refl]) (by push_cast; linarith)]
  push_cast
  field_simp

/-! Claim theorems. -/

/-- The spec's example points (10.0000001, 20.0000004) and
(10.0000003, 20.0000002). -/
def exPointA : PointXY := ⟨100000001/10000000, 200000004/10000000⟩

def exPointB : PointXY := ⟨100000003/10000000, 200000002/10000000⟩

theorem pointKey_exPointA : pointKey exPointA = (10, 20) := by
  unfold pointKey exPointA
  rw [round6_eval (100000001/10000000) 10000000 (by norm_num) (by norm_num),
    round6_eval (200000004/10000000) 20000000 (by norm_num) (by norm_num)]
  norm_num

theorem pointKey_exPointB : pointKey exPointB = (10, 20) := by
  unfold pointKey exPointB
  rw [round6_eval (100000003/10000000) 10000000 (by norm_num) (by norm_num),
    round6_eval (200000002/10000000) 20000000 (by norm_num) (by norm_num)]
  norm_num

/-- C3: any set of extracted points whose coordinates round to the same
value at 6 decimal digits collapses to exactly one index entry (the key
map over the kept entries has no duplicates), and the entry kept for a
key is the first point in extraction order with that key; in particular
(10.0000001, 20.0000004) and (10.0000003, 20.0000002) both produce key
(10.0, 20.0) and yield the single entry (0, first point). -/
theorem c3_rounded_key_dedup_first_wins :
    (∀ ps : List PointXY,
      (((buildFromPoints ps).lookup).map (fun e => pointKey e.2)).Nodup
      ∧ ∀ p ∈ ps, ∃ e ∈ (buildFromPoints ps).lookup,
          pointKey e.2 = pointKey p
          ∧ ps.find? (fun r => decide (pointKey r = pointKey p)) = some e.2)
    ∧ pointKey exPointA = (10, 20)
    ∧ pointKey exPointB = (10, 20)
    ∧ (buildFromPoints [exPointA, exPointB]).lookup = [(0, exPointA)] := by
  have hded : dedupFirst [] [exPointA, exPointB] = [exPointA] := by
    simp [dedupFirst, pointKey_exPointA, pointKey_exPointB]
  refine ⟨fun ps => ⟨?_, ?_⟩, pointKey_exPointA, pointKey_exPointB, ?_⟩
  · rw [buildFromPoints_eq]
    have : (enumWith 0 (dedupFirst [] ps)).map (fun e => pointKey e.2) =
        ((enumWith 0 (dedupFirst [] ps)).map Prod.snd).map pointKey := by
      rw [List.map_map]; rfl
    simp only [this, enumWith_map_snd]
    exact dedupFirst_keys_nodup ps []
  · intro p hp
    obtain ⟨q, hq, hkey, hfind⟩ :=
      dedupFirst_first_wins ps [] p hp (List.not_mem_nil _)
    obtain ⟨i, hi⟩ := mem_enumWith_of_mem 0 hq
    refine ⟨(i, q), ?_, hkey, hfind⟩
    rw [buildFromPoints_eq]
    exact hi
  · rw [buildFromPoints_eq, hded]
    simp [enumWith]

/-- Witness for C3 at the spec's example input: the two example points
deduplicate to the single entry (0, exPointA), the first occurrence. -/
theorem c3_rounded_key_dedup_first_wins_witness :
    (((buildFromPoints [exPointA, exPointB]).lookup).map (fun e => pointKey e.2)).Nodup
    ∧ ∃ e ∈ (buildFromPoints [exPointA, exPointB]).lookup,
        pointKey e.2 = pointKey exPointB
        ∧ [exPointA, exPointB].find?
            (fun r => decide (pointKey r = pointKey exPointB)) = some e.2 := by
  have h := c3_rounded_key_dedup_first_wins
  exact ⟨(h.1 [exPointA, exPointB]).1,
    (h.1 [exPointA, exPointB]).2 exPointB (by simp)⟩

/-!  The run-state invariant behind C4/C5: the spatial index and the
id lookup always hold the same entries, and the assigned ids are
exactly 0,...,counter-1 in insertion order. -/

def GoodState (st : BuildState) : Prop :=
  st.genIndex = st.lookup
  ∧ st.lookup.map Prod.fst = List.range st.counter
  ∧ st.counter = st.lookup.length

theorem goodState_init : GoodState initState := by
  exact ⟨rfl, rfl, rfl⟩

theorem goodState_remember (st : BuildState) (p : Option PointXY)
    (h : GoodState st) : GoodState (rememberPoint st p) := by
  obtain ⟨hgi, hids, hcnt⟩ := h
  match p with
  | none => exact ⟨hgi, hids, hcnt⟩
  | some q =>
    show GoodState (if pointKey q ∈ st.usedKeys then st else _)
    by_cases hk : pointKey q ∈ st.usedKeys
    · rw [if_pos hk]; exact ⟨hgi, hids, hcnt⟩
    · rw [if_neg hk]
      refine ⟨by simp [hgi], ?_, by simp [hcnt]⟩
      simp only [List.map_append, hids, List.map_cons, List.map_nil]
      rw [List.range_succ]

theorem goodState_foldl (g : PointXY → Option PointXY) (ps : List PointXY) :
    ∀ st : BuildState, GoodState st →
      GoodState (ps.foldl (fun s raw => rememberPoint s (g raw)) st) := by
  induction ps with
  | nil => intro st h; exact h
  | cons p rest ih =>
    intro st h
    exact ih _ (goodState_remember st (g p) h)

theorem goodState_processFeature (k : WkbKind) (tr : Option Transform)
    (st : BuildState) (f : Feature) (h : GoodState st) :
    GoodState (processFeature k tr st f) := by
  unfold processFeature
  match f.geom with
  | none => exact h
  | some g =>
    by_cases he : g.isEmptyG
    · simp only [he]; exact h
    · simp only [he]
      exact goodState_foldl _ _ st h

theorem goodState_runFeatures (k : WkbKind) (tr : Option Transform)
    (cA : Option ℕ) (fs : List Feature) :
    ∀ (n : ℕ) (st : BuildState), GoodState st →
      ∀ (n' : ℕ) (st' : BuildState),
        runFeatures k tr cA fs n st = (n', some st') → GoodState st' := by
  induction fs with
  | nil =>
    intro n st h n' st' heq
    simp only [runFeatures] at heq
    obtain ⟨-, h2⟩ := Prod.mk.injEq .. ▸ heq
    cases Option.some.injEq .. ▸ h2
    exact h
  | cons f rest ih =>
    intro n st h n' st' heq
    simp only [runFeatures] at heq
    by_cases hc : polled cA n
    · rw [if_pos hc] at heq
      cases (Prod.mk.injEq .. ▸ heq).2
    · rw [if_neg hc] at heq
      exact ih (n + 1) _ (goodState_processFeature k tr st f h) n' st' heq

theorem goodState_runLayers (env : TaskEnv) (tc : Option CRS) (cA : Option ℕ)
    (ls : List Layer) :
    ∀ (n : ℕ) (st : BuildState) (errs : List String), GoodState st →
      ∀ (n' : ℕ) (st' : BuildState) (errs' : List String),
        runLayers env tc cA ls n st errs = .ok (n', some (st', errs')) →
        GoodState st' := by
  induction ls with
  | nil =>
    intro n st errs h n' st' errs' heq
    simp only [runLayers] at heq
    obtain ⟨-, h2⟩ := Prod.mk.injEq .. ▸ (Except.ok.injEq .. ▸ heq)
    obtain ⟨h3, -⟩ := Prod.mk.injEq .. ▸ (Option.some.injEq .. ▸ h2)
    exact h3 ▸ h
  | cons l rest ih =>
    intro n st errs h n' st' errs' heq
    simp only [runLayers] at heq
    by_cases hc : polled cA n
    · rw [if_pos hc] at heq
      cases (Prod.mk.injEq .. ▸ (Except.ok.injEq .. ▸ heq)).2
    · rw [if_neg hc] at heq
      cases hprep : prepareLayerContext env l tc with
      | error e => rw [hprep] at heq; cases heq
      | ok tr =>
        rw [hprep] at heq
        simp only [] at heq
        cases hrf : runFeatures (match l.wkbTypeL with
            | .ok k => k
            | .error _ => WkbKind.unknownGeom) tr cA l.features.1 (n + 1) st with
        | mk nf ost =>
          rw [hrf] at heq
          cases ost with
          | none =>
            simp only at heq
            cases (Prod.mk.injEq .. ▸ (Except.ok.injEq .. ▸ heq)).2
          | some stf =>
            have hgf := goodState_runFeatures _ tr cA l.features.1 (n + 1) st h nf stf hrf
            simp only at heq
            cases hfe : l.features.2 with
            | some e =>
              rw [hfe] at heq
              exact ih nf stf _ hgf n' st' errs' heq
            | none =>
              rw [hfe] at heq
              exact ih nf stf _ hgf n' st' errs' heq

/-- A point feature geometry used by the concrete run environments. -/
def geomOne : Geometry :=
  { isEmptyG := false
    verticesW := ([⟨5, 6⟩], false)
    centroidC := .error "no centroid"
    gkind := .ok .pointGeom
    asPointA := .error "unused"
    asMultiPointA := .error "unused"
    asPolylineA := .error "unused"
    asMultiPolylineA := .error "unused"
    asPolygonA := .error "unused"
    asMultiPolygonA := .error "unused" }

/-- A valid visible point layer with one feature at (5, 6). -/
def layerOne : Layer :=
  { lid := "a"
    nameL := "Layer A"
    isVector := true
    isValidL := true
    wkbTypeL := .ok .pointGeom
    crsL := .ok ⟨4326, true⟩
    features := ([⟨some geomOne⟩], none) }

/-- A one-layer project whose layer already sits in the viewport CRS. -/
def envOne : TaskEnv :=
  { projectLayers := [layerOne]
    canvas := { visibleLayerIds := ["a"], mapSettingsC := some ⟨⟨4326, true⟩⟩ }
    mkTransform := fun _ _ => none }

/-- A completed run hands out either the canonical empty bundle or a
bundle built from a state satisfying the run invariant. -/
theorem runTask_completed_cases (env : TaskEnv) (ov : Bool) (cA : Option ℕ)
    (b : IndexBundle) (errs : List String)
    (h : runTask env ov cA = .ok (true, b, errs)) :
    b = { point_index := none, id_to_point := [] }
    ∨ ∃ st : BuildState, GoodState st ∧ st.lookup ≠ []
        ∧ b = { point_index := some st.genIndex, id_to_point := st.lookup } := by
  unfold runTask at h
  cases hr : runLayers env (env.canvas.mapSettingsC.map (·.destCrs)) cA
      (candidateLayers env ov) 0 initState [] with
  | error e => rw [hr] at h; cases h
  | ok pr =>
    rw [hr] at h
    obtain ⟨n, ost⟩ := pr
    cases ost with
    | none =>
      simp only [Except.ok.injEq, Prod.mk.injEq] at h
      cases h.1
    | some ste =>
      obtain ⟨st, errs0⟩ := ste
      simp only at h
      by_cases hemp : st.lookup.isEmpty
      · rw [if_pos hemp] at h
        simp only [Except.ok.injEq, Prod.mk.injEq] at h
        exact Or.inl (h.2.1 ▸ rfl)
      · rw [if_neg hemp] at h
        simp only [Except.ok.injEq, Prod.mk.injEq] at h
        refine Or.inr ⟨st, ?_, ?_, h.2.1.symm⟩
        · exact goodState_runLayers env _ cA (candidateLayers env ov) 0 initState []
            goodState_init n st errs0 hr
        · exact fun hc => hemp (by simp [hc])

/-- C4: every bundle handed out by a completed run is bijective: the
keys inserted into point_index are exactly the keys of id_to_point,
with the same point values and no duplicated id; a bundle without a
point_index is the distinguished empty state with an empty id map. -/
theorem c4_completed_bundle_bijective (env : TaskEnv) (ov : Bool) (cA : Option ℕ)
    (b : IndexBundle) (errs : List String)
    (h : runTask env ov cA = .ok (true, b, errs)) :
    (∀ idx, b.point_index = some idx →
      (∀ i p, (i, p) ∈ idx ↔ (i, p) ∈ b.id_to_point)
      ∧ (b.id_to_point.map Prod.fst).Nodup)
    ∧ (b.point_index = none → b.id_to_point = []) := by
  rcases runTask_completed_cases env ov cA b errs h with hb | ⟨st, ⟨hgi, hids, -⟩, -, hb⟩
  · subst hb
    exact ⟨fun idx hidx => (nomatch hidx), fun _ => rfl⟩
  · subst hb
    constructor
    · intro idx hidx
      obtain rfl := Option.some.inj hidx
      constructor
      · intro i p; rw [hgi]
      · show (st.lookup.map Prod.fst).Nodup
        rw [hids]
        exact List.nodup_range _
    · intro hnone; cases hnone

/-- Witness for C4: a completed one-layer, one-point run yields the
bundle with entry (0, (5, 6)) in both the index and the map. -/
theorem c4_completed_bundle_bijective_witness :
    (∀ idx, (IndexBundle.mk (some [(0, ⟨5, 6⟩)]) [(0, ⟨5, 6⟩)]).point_index = some idx →
      (∀ i p, (i, p) ∈ idx ↔
        (i, p) ∈ (IndexBundle.mk (some [(0, ⟨5, 6⟩)]) [(0, ⟨5, 6⟩)]).id_to_point)
      ∧ ((IndexBundle.mk (some [(0, ⟨5, 6⟩)]) [(0, ⟨5, 6⟩)]).id_to_point.map Prod.fst).Nodup)
    ∧ ((IndexBundle.mk (some [(0, ⟨5, 6⟩)]) [(0, ⟨5, 6⟩)]).point_index = none →
      (IndexBundle.mk (some [(0, ⟨5, 6⟩)]) [(0, ⟨5, 6⟩)]).id_to_point = []) :=
  c4_completed_bundle_bijective envOne true none
    (IndexBundle.mk (some [(0, ⟨5, 6⟩)]) [(0, ⟨5, 6⟩)]) [] rfl

/-- C5: in every completed run the ids present in the bundle are
exactly 0, 1, ..., in insertion order, with no gap and no reuse. -/
theorem c5_ids_consecutive_from_zero (env : TaskEnv) (ov : Bool) (cA : Option ℕ)
    (b : IndexBundle) (errs : List String)
    (h : runTask env ov cA = .ok (true, b, errs)) :
    b.id_to_point.map Prod.fst = List.range b.id_to_point.length := by
  rcases runTask_completed_cases env ov cA b errs h with hb | ⟨st, ⟨-, hids, hcnt⟩, -, hb⟩
  · subst hb; rfl
  · subst hb
    show st.lookup.map Prod.fst = List.range st.lookup.length
    rw [hids, hcnt]

/-- Witness for C5: the completed one-point run assigns exactly id 0. -/
theorem c5_ids_consecutive_from_zero_witness :
    (IndexBundle.mk (some [(0, ⟨5, 6⟩)]) [(0, ⟨5, 6⟩)]).id_to_point.map Prod.fst =
      List.range (IndexBundle.mk (some [(0, ⟨5, 6⟩)]) [(0, ⟨5, 6⟩)]).id_to_point.length :=
  c5_ids_consecutive_from_zero envOne true none
    (IndexBundle.mk (some [(0, ⟨5, 6⟩)]) [(0, ⟨5, 6⟩)]) [] rfl

/-!  C1 / C2: cancellation handling and the no-raise contract. -/

/-- A second visible point layer whose only feature has a null
geometry. -/
def layerTwo : Layer :=
  { lid := "b"
    nameL := "Layer B"
    isVector := true
    isValidL := true
    wkbTypeL := .ok .pointGeom
    crsL := .ok ⟨4326, true⟩
    features := ([⟨none⟩], none) }

/-- A two-layer project: layer a holds the point (5, 6), layer b only a
null-geometry feature. -/
def envTwo : TaskEnv :=
  { projectLayers := [layerOne, layerTwo]
    canvas := { visibleLayerIds := ["a", "b"], mapSettingsC := some ⟨⟨4326, true⟩⟩ }
    mkTransform := fun _ _ => none }

/-- A previously active non-empty bundle. -/
def prevBundle : IndexBundle :=
  { point_index := some [(0, ⟨1, 2⟩)], id_to_point := [(0, ⟨1, 2⟩)] }

/-- C1 (code bug): on envTwo an uncanceled run completes with a
non-empty bundle, but the same run canceled at poll 2 (after layer a
and its feature were fully processed, before layer b) returns False
with the untouched fresh result_bundle; finished() emits completed
regardless of that False, so _on_task_complete adopts the canceled
run's empty bundle, replacing — not keeping — the previously active
bundle.  This contradicts the claim that a canceled run leaves the
active bundle untouched. -/
theorem c1_canceled_run_result_adopted :
    runTask envTwo true none =
      .ok (true, { point_index := some [(0, ⟨5, 6⟩)], id_to_point := [(0, ⟨5, 6⟩)] }, [])
    ∧ runTask envTwo true (some 2) = .ok (false, emptyBundle, [])
    ∧ onTaskComplete prevBundle emptyBundle = emptyBundle
    ∧ onTaskComplete prevBundle emptyBundle ≠ prevBundle :=
  ⟨rfl, rfl, rfl, by decide⟩

/-- A candidate layer whose crs() probe raises. -/
def layerBadCrs : Layer :=
  { lid := "c"
    nameL := "Layer C"
    isVector := true
    isValidL := true
    wkbTypeL := .ok .pointGeom
    crsL := .error "crs unavailable"
    features := ([], none) }

/-- A project containing the crs-raising layer, with a valid viewport
CRS so _prepare_layer_context probes layer.crs(). -/
def envBadCrs : TaskEnv :=
  { projectLayers := [layerBadCrs]
    canvas := { visibleLayerIds := ["c"], mapSettingsC := some ⟨⟨4326, true⟩⟩ }
    mkTransform := fun _ _ => none }

/-- Counterexample to C2 as stated: a per-layer failure in the
layer.crs() probe — which _prepare_layer_context performs outside any
try block — escapes run() instead of being caught and recorded. -/
theorem c2_counterexample_crs_probe_raises :
    runTask envBadCrs true none = .error "crs unavailable" := rfl

/-- The error message run() records for a layer whose feature stream
raises. -/
def layerErrMsg (l : Layer) : Option String :=
  (l.features.2).map (fun e => l.nameL ++ ": " ++ e)

theorem prepareLayerContext_isOk (env : TaskEnv) (l : Layer) (tc : Option CRS)
    (h : l.crsL.isOk = true) : (prepareLayerContext env l tc).isOk = true := by
  cases tc with
  | none => rfl
  | some c =>
    show (if c.validCrs then
        match l.crsL with
        | .error e => Except.error e
        | .ok lc => if lc ≠ c then Except.ok (env.mkTransform lc c) else Except.ok none
      else Except.ok none).isOk = true
    by_cases hv : c.validCrs
    · rw [if_pos hv]
      cases hc : l.crsL with
      | error e => rw [hc] at h; cases h
      | ok lc =>
        simp only []
        by_cases hne : lc ≠ c
        · rw [if_pos hne]; rfl
        · rw [if_neg hne]; rfl
    · rw [if_neg hv]; rfl

theorem runFeatures_none_completes (k : WkbKind) (tr : Option Transform)
    (fs : List Feature) : ∀ (n : ℕ) (st : BuildState),
      ∃ (n' : ℕ) (st' : BuildState), runFeatures k tr none fs n st = (n', some st') := by
  induction fs with
  | nil => intro n st; exact ⟨n, st, rfl⟩
  | cons f rest ih =>
    intro n st
    obtain ⟨n', st', hr⟩ := ih (n + 1) (processFeature k tr st f)
    exact ⟨n', st', by simp only [runFeatures, polled, if_neg] ; exact hr⟩

theorem runLayers_isOk (env : TaskEnv) (tc : Option CRS) (cA : Option ℕ)
    (ls : List Layer) (h : ∀ l ∈ ls, l.crsL.isOk = true) :
    ∀ (n : ℕ) (st : BuildState) (errs : List String),
      (runLayers env tc cA ls n st errs).isOk = true := by
  induction ls with
  | nil => intro n st errs; rfl
  | cons l rest ih =>
    intro n st errs
    have hl : l.crsL.isOk = true := h l (List.mem_cons_self _ _)
    have hrest : ∀ l ∈ rest, l.crsL.isOk = true :=
      fun x hx => h x (List.mem_cons_of_mem _ hx)
    simp only [runLayers]
    by_cases hc : polled cA n
    · rw [if_pos hc]; rfl
    · rw [if_neg hc]
      cases hp : prepareLayerContext env l tc with
      | error e =>
        have := prepareLayerContext_isOk env l tc hl
        rw [hp] at this; cases this
      | ok tr =>
        simp only []
        cases hrf : runFeatures (match l.wkbTypeL with
            | .ok k => k
            | .error _ => WkbKind.unknownGeom) tr cA l.features.1 (n + 1) st with
        | mk nf ost =>
          cases ost with
          | none => rfl
          | some stf =>
            cases hfe : l.features.2 with
            | some e => exact ih hrest nf stf _
            | none => exact ih hrest nf stf _

theorem runLayers_none_completes (env : TaskEnv) (tc : Option CRS)
    (ls : List Layer) (h : ∀ l ∈ ls, l.crsL.isOk = true) :
    ∀ (n : ℕ) (st : BuildState) (errs : List String),
      ∃ (n' : ℕ) (st' : BuildState),
        runLayers env tc none ls n st errs =
          .ok (n', some (st', errs ++ ls.filterMap layerErrMsg)) := by
  induction ls with
  | nil => intro n st errs; exact ⟨n, st, by simp [runLayers]⟩
  | cons l rest ih =>
    intro n st errs
    have hl : l.crsL.isOk = true := h l (List.mem_cons_self _ _)
    have hrest : ∀ l ∈ rest, l.crsL.isOk = true :=
      fun x hx => h x (List.mem_cons_of_mem _ hx)
    obtain ⟨tr, htr⟩ : ∃ tr, prepareLayerContext env l tc = .ok tr := by
      cases hp : prepareLayerContext env l tc with
      | error e =>
        have := prepareLayerContext_isOk env l tc hl
        rw [hp] at this; cases this
      | ok tr => exact ⟨tr, rfl⟩
    obtain ⟨nf, stf, hrf⟩ := runFeatures_none_completes (match l.wkbTypeL with
      | .ok k => k
      | .error _ => WkbKind.unknownGeom) tr l.features.1 (n + 1) st
    cases hfe : l.features.2 with
    | some e =>
      obtain ⟨n', st', hr⟩ := ih hrest nf stf (errs ++ [l.nameL ++ ": " ++ e])
      refine ⟨n', st', ?_⟩
      simp only [runLayers, polled, Bool.false_eq_true, if_false, htr, hrf, hfe]
      rw [hr]
      simp [layerErrMsg, hfe, List.filterMap_cons, List.append_assoc]
    | none =>
      obtain ⟨n', st', hr⟩ := ih hrest nf stf errs
      refine ⟨n', st', ?_⟩
      simp only [runLayers, polled, Bool.false_eq_true, if_false, htr, hrf, hfe]
      rw [hr]
      simp [layerErrMsg, hfe, List.filterMap_cons]

/-- C2 (amended): provided each candidate layer's crs() probe succeeds,
the run never raises for any cancellation schedule; an uncanceled run
returns True and records exactly one formatted message per candidate
layer whose feature stream raised, in layer order, all remaining
layers still being processed to completion. -/
theorem c2_no_raise_feature_failures_recorded (env : TaskEnv) (ov : Bool)
    (h : ∀ l ∈ candidateLayers env ov, l.crsL.isOk = true) :
    (∀ cA, (runTask env ov cA).isOk = true)
    ∧ ∃ b, runTask env ov none =
        .ok (true, b, (candidateLayers env ov).filterMap layerErrMsg) := by
  constructor
  · intro cA
    unfold runTask
    cases hr : runLayers env (env.canvas.mapSettingsC.map (·.destCrs)) cA
        (candidateLayers env ov) 0 initState [] with
    | error e =>
      have := runLayers_isOk env (env.canvas.mapSettingsC.map (·.destCrs)) cA
        (candidateLayers env ov) h 0 initState []
      rw [hr] at this; cases this
    | ok pr =>
      obtain ⟨n, ost⟩ := pr
      cases ost with
      | none => rfl
      | some ste =>
        obtain ⟨st, errs0⟩ := ste
        by_cases hemp : st.lookup.isEmpty
        · simp only [if_pos hemp]; rfl
        · simp only [if_neg hemp]; rfl
  · obtain ⟨n', st', hr⟩ := runLayers_none_completes env
      (env.canvas.mapSettingsC.map (·.destCrs)) (candidateLayers env ov) h 0 initState []
    unfold runTask
    rw [hr]
    simp only [List.nil_append]
    by_cases hemp : st'.lookup.isEmpty
    · exact ⟨emptyBundle.clear, by rw [if_pos hemp]⟩
    · exact ⟨{ point_index := some st'.genIndex, id_to_point := st'.lookup },
        by rw [if_neg hemp]⟩

/-- A candidate layer whose feature stream raises after yielding no
features. -/
def layerBadStream : Layer :=
  { lid := "d"
    nameL := "Layer D"
    isVector := true
    isValidL := true
    wkbTypeL := .ok .pointGeom
    crsL := .ok ⟨4326, true⟩
    features := ([], some "stream failure") }

/-- A project mixing a failing-stream layer with a healthy layer. -/
def envMix : TaskEnv :=
  { projectLayers := [layerBadStream, layerOne]
    canvas := { visibleLayerIds := ["d", "a"], mapSettingsC := some ⟨⟨4326, true⟩⟩ }
    mkTransform := fun _ _ => none }

/-- Witness for the amended C2: on envMix no schedule makes the run
raise, and the uncanceled run completes recording exactly the failing
layer's message. -/
theorem c2_no_raise_feature_failures_recorded_witness :
    (∀ cA, (runTask envMix true cA).isOk = true)
    ∧ ∃ b, runTask envMix true none =
        .ok (true, b, (candidateLayers envMix true).filterMap layerErrMsg) :=
  c2_no_raise_feature_failures_recorded envMix true (by decide)

/-!  C6 / C7: the fallback snap path. -/

/-- C6: the effective tolerance is tolerance_value scaled by
map-units-per-pixel exactly when the units are pixels, and unchanged
for map units; the single nearest candidate is accepted iff its squared
distance to the pointer is at most the squared effective tolerance —
equality accepted, anything strictly greater rejected. -/
theorem c6_fallback_tolerance_boundary (s : SnapSettings) (mupp : ℚ)
    (cand mapPt : PointXY) (hf : useFallback s = true) :
    muTolerance s mupp =
      (if toleranceUnits s = "px" then toleranceValue s * mupp else toleranceValue s)
    ∧ doSnap s (some { point_index := some [(0, cand)], id_to_point := [(0, cand)] })
        { primaryResult := .ok none, mapUnitsPerPixel := mupp } mapPt =
      (if sqrDist cand mapPt ≤ muTolerance s mupp * muTolerance s mupp then
        SnapOutcome.showMarker cand else SnapOutcome.hide, true) := by
  refine ⟨rfl, ?_⟩
  simp only [doSnap]
  rw [if_pos ⟨hf, rfl⟩]
  rfl

/-- Settings with map-unit tolerance 5 and the fallback enabled. -/
def settingsMu : SnapSettings :=
  { tolerance_value := some 5
    tolerance_units := some "mu"
    use_fallback_index := some true }

/-- Witness for C6 at the boundary: a candidate at squared distance
exactly tolerance² (25 = 5²) from the pointer is accepted. -/
theorem c6_fallback_tolerance_boundary_witness :
    doSnap settingsMu
      (some { point_index := some [(0, ⟨3, 4⟩)], id_to_point := [(0, ⟨3, 4⟩)] })
      { primaryResult := .ok none, mapUnitsPerPixel := 1 } ⟨0, 0⟩ =
      (SnapOutcome.showMarker ⟨3, 4⟩, true) := by
  have h := (c6_fallback_tolerance_boundary settingsMu 1 ⟨3, 4⟩ ⟨0, 0⟩ rfl).2
  rw [h, if_pos]
  have hmt : muTolerance settingsMu 1 = 5 := by
    simp [muTolerance, toleranceUnits, toleranceValue, settingsMu]
  rw [hmt]
  show (3 - 0) * (3 - 0) + (4 - 0) * (4 - 0) ≤ (5 : ℚ) * 5
  norm_num

/-- True when the primary engine produced no valid match: snapToMap
returned an invalid match or raised (caught and treated the same). -/
def primaryMissed (env : SnapEnv) : Bool :=
  match env.primaryResult with
  | .ok (some _) => false
  | _ => true

theorem doSnap_primary_valid (s : SnapSettings) (bundle : Option IndexBundle)
    (env : SnapEnv) (mapPt : PointXY) (p : PointXY)
    (hp : env.primaryResult = .ok (some p)) :
    doSnap s bundle env mapPt = (.showMarker p, false) := by
  unfold doSnap
  rw [hp]

theorem fallbackArm_shape (s : SnapSettings) (bundle : Option IndexBundle)
    (mupp : ℚ) (mapPt : PointXY) :
    ((if useFallback s ∧ (bundleIndexOf bundle).isSome then
        (match bundleIndexOf bundle with
        | none => ((SnapOutcome.hide, true) : SnapOutcome × Bool)
        | some idx => (fallbackLookup s bundle idx mupp mapPt, true))
      else (SnapOutcome.hide, false)).2 =
      (useFallback s && (bundleIndexOf bundle).isSome))
    ∧ ((useFallback s && (bundleIndexOf bundle).isSome) = false →
        (if useFallback s ∧ (bundleIndexOf bundle).isSome then
          (match bundleIndexOf bundle with
          | none => ((SnapOutcome.hide, true) : SnapOutcome × Bool)
          | some idx => (fallbackLookup s bundle idx mupp mapPt, true))
        else (SnapOutcome.hide, false)) = (SnapOutcome.hide, false)) := by
  by_cases hcond : useFallback s = true ∧ (bundleIndexOf bundle).isSome = true
  · have hand : (useFallback s && (bundleIndexOf bundle).isSome) = true := by
      rw [hcond.1, hcond.2]
      rfl
    rw [if_pos hcond, hand]
    constructor
    · cases hbx : bundleIndexOf bundle with
      | none => rfl
      | some idx => rfl
    · intro hfalse
      cases hfalse
  · have hand : (useFallback s && (bundleIndexOf bundle).isSome) = false := by
      rcases Bool.eq_false_or_eq_true (useFallback s) with hu | hu
      · rcases Bool.eq_false_or_eq_true ((bundleIndexOf bundle).isSome) with hb | hb
        · exact absurd ⟨hu, hb⟩ hcond
        · rw [hb, Bool.and_false]
      · rw [hu, Bool.false_and]
    rw [if_neg hcond, hand]
    exact ⟨rfl, fun _ => rfl⟩

theorem doSnap_missed_shape (s : SnapSettings) (bundle : Option IndexBundle)
    (env : SnapEnv) (mapPt : PointXY) (hpm : primaryMissed env = true) :
    ((doSnap s bundle env mapPt).2 = (useFallback s && (bundleIndexOf bundle).isSome))
    ∧ ((useFallback s && (bundleIndexOf bundle).isSome) = false →
        doSnap s bundle env mapPt = (.hide, false)) := by
  unfold doSnap
  cases hpr : env.primaryResult with
  | error e => exact fallbackArm_shape s bundle env.mapUnitsPerPixel mapPt
  | ok op =>
    cases op with
    | some q => rw [primaryMissed, hpr] at hpm; cases hpm
    | none => exact fallbackArm_shape s bundle env.mapUnitsPerPixel mapPt

/-- C7: the fallback index is queried iff the primary engine yielded no
valid match (invalid or raised) and use_fallback_index is enabled and
the current bundle is non-empty; a valid primary match short-circuits
with the fallback never consulted; an unavailable fallback resolves to
hiding the marker, not an error.  (The hypothesis restricts to bundles
whose point_index presence agrees with id_to_point non-emptiness, which
C4 establishes for every bundle a run hands out.) -/
theorem c7_fallback_query_discipline (s : SnapSettings) (bundle : Option IndexBundle)
    (env : SnapEnv) (mapPt : PointXY)
    (hcons : ∀ b, bundle = some b → (b.point_index.isSome = true ↔ b.id_to_point ≠ [])) :
    ((doSnap s bundle env mapPt).2 = true ↔
      (primaryMissed env = true ∧ useFallback s = true
        ∧ ∃ b, bundle = some b ∧ b.isEmptyB = false))
    ∧ (∀ p, env.primaryResult = .ok (some p) →
        doSnap s bundle env mapPt = (.showMarker p, false))
    ∧ ((doSnap s bundle env mapPt).2 = false → primaryMissed env = true →
        (doSnap s bundle env mapPt).1 = .hide) := by
  have hbi : (bundleIndexOf bundle).isSome = true ↔
      ∃ b, bundle = some b ∧ b.isEmptyB = false := by
    cases bundle with
    | none =>
      constructor
      · intro hs; cases hs
      · rintro ⟨b, hb, -⟩; cases hb
    | some b =>
      have hred : bundleIndexOf (some b) = b.point_index := by
        show b.point_index.or b.centroid_index = b.point_index
        cases hpi : b.point_index with
        | none =>
          show Option.or none b.centroid_index = none
          rw [IndexBundle.centroid_index, hpi]
          rfl
        | some idx => rfl
      rw [hred]
      constructor
      · intro hs
        refine ⟨b, rfl, ?_⟩
        have hne := (hcons b rfl).mp hs
        cases hl : b.id_to_point with
        | nil => exact absurd hl hne
        | cons x xs => simp [IndexBundle.isEmptyB, hl]
      · rintro ⟨b', hb', hne⟩
        have hbb := Option.some.inj hb'
        subst hbb
        apply (hcons b rfl).mpr
        intro hnil
        simp [IndexBundle.isEmptyB, hnil] at hne
  refine ⟨?_, ?_, ?_⟩
  · cases hpm : primaryMissed env with
    | false =>
      have hp : ∃ p, env.primaryResult = .ok (some p) := by
        cases hpr : env.primaryResult with
        | ok op =>
          cases op with
          | some p => exact ⟨p, rfl⟩
          | none => rw [primaryMissed, hpr] at hpm; cases hpm
        | error e => rw [primaryMissed, hpr] at hpm; cases hpm
      obtain ⟨p, hp⟩ := hp
      rw [doSnap_primary_valid s bundle env mapPt p hp]
      constructor
      · intro h2; cases h2
      · rintro ⟨hpm', -⟩; cases hpm'
    | true =>
      obtain ⟨hsnd, -⟩ := doSnap_missed_shape s bundle env mapPt hpm
      rw [hsnd]
      constructor
      · intro hand
        rw [Bool.and_eq_true] at hand
        exact ⟨rfl, hand.1, hbi.mp hand.2⟩
      · rintro ⟨-, h1, h2⟩
        rw [Bool.and_eq_true]
        exact ⟨h1, hbi.mpr h2⟩
  · intro p hp
    exact doSnap_primary_valid s bundle env mapPt p hp
  · intro h2 hpm
    obtain ⟨hsnd, hunav⟩ := doSnap_missed_shape s bundle env mapPt hpm
    have hfalse : (useFallback s && (bundleIndexOf bundle).isSome) = false := by
      rw [← hsnd]; exact h2
    rw [hunav hfalse]

/-- The non-empty candidate bundle used by the snap-tool witnesses. -/
def bundle34 : IndexBundle :=
  { point_index := some [(0, ⟨3, 4⟩)], id_to_point := [(0, ⟨3, 4⟩)] }

/-- A snap environment whose primary engine returns an invalid match. -/
def envMiss : SnapEnv := { primaryResult := .ok none, mapUnitsPerPixel := 1 }

/-- Witness for C7: with the primary engine missing, fallback enabled
and a consistent non-empty bundle, the fallback index is queried. -/
theorem c7_fallback_query_discipline_witness :
    ((doSnap settingsMu (some bundle34) envMiss ⟨0, 0⟩).2 = true ↔
      (primaryMissed envMiss = true ∧ useFallback settingsMu = true
        ∧ ∃ b, (some bundle34 : Option IndexBundle) = some b ∧ b.isEmptyB = false))
    ∧ (∀ p, envMiss.primaryResult = .ok (some p) →
        doSnap settingsMu (some bundle34) envMiss ⟨0, 0⟩ = (.showMarker p, false))
    ∧ ((doSnap settingsMu (some bundle34) envMiss ⟨0, 0⟩).2 = false →
        primaryMissed envMiss = true →
        (doSnap settingsMu (some bundle34) envMiss ⟨0, 0⟩).1 = .hide) :=
  c7_fallback_query_discipline settingsMu (some bundle34) envMiss ⟨0, 0⟩
    (by intro b hb; obtain rfl := Option.some.inj hb; simp [bundle34])

/-- C8: for a feature of a polygon-kind layer whose vertex walk
succeeds, point extraction yields the geometry's vertices followed by
exactly one centroid point when centroid computation succeeds with a
non-empty result — 5 candidates for 4 vertices — and only the vertices
when the centroid fails or is empty. -/
theorem c8_polygon_vertices_plus_centroid (g : Geometry) (vs : List PointXY)
    (c : PointXY) (hw : g.verticesW = (vs, false)) :
    (geometryCentroid g = some c →
      iterPoints g .polygonGeom = vs ++ [c]
      ∧ (vs.length = 4 → (iterPoints g .polygonGeom).length = 5))
    ∧ (geometryCentroid g = none → iterPoints g .polygonGeom = vs) := by
  constructor
  · intro hc
    have h1 : iterPoints g .polygonGeom = vs ++ [c] := by
      unfold iterPoints geometryVertices
      rw [hw, hc]
      simp
    refine ⟨h1, fun h4 => ?_⟩
    rw [h1]
    simp [h4]
  · intro hc
    unfold iterPoints geometryVertices
    rw [hw, hc]
    simp

/-- A single-ring unit-square polygon geometry with 4 vertices and a
successful centroid. -/
def gSquare : Geometry :=
  { isEmptyG := false
    verticesW := ([⟨0, 0⟩, ⟨1, 0⟩, ⟨1, 1⟩, ⟨0, 1⟩], false)
    centroidC := .ok ⟨false, .ok ⟨1/2, 1/2⟩⟩
    gkind := .ok .polygonGeom
    asPointA := .error "not a point"
    asMultiPointA := .error "not a point"
    asPolylineA := .error "not a line"
    asMultiPolylineA := .error "not a line"
    asPolygonA := .ok [[⟨0, 0⟩, ⟨1, 0⟩, ⟨1, 1⟩, ⟨0, 1⟩]]
    asMultiPolygonA := .error "single part" }

/-- Witness for C8: the square polygon yields its 4 corners plus the
centroid — 5 candidate points before dedup. -/
theorem c8_polygon_vertices_plus_centroid_witness :
    iterPoints gSquare .polygonGeom =
      [⟨0, 0⟩, ⟨1, 0⟩, ⟨1, 1⟩, ⟨0, 1⟩] ++ [⟨1/2, 1/2⟩]
    ∧ (iterPoints gSquare .polygonGeom).length = 5 := by
  have h := (c8_polygon_vertices_plus_centroid gSquare
    [⟨0, 0⟩, ⟨1, 0⟩, ⟨1, 1⟩, ⟨0, 1⟩] ⟨1/2, 1/2⟩ rfl).1 rfl
  exact ⟨h.1, h.2 rfl⟩

/-- C9: the primary engine's snap type as a function of the
snap_vertices / snap_segments settings (each defaulting to true):
both on gives VertexAndSegment, only vertices gives Vertex, only
segments gives Segment, and both off still gives Vertex — the local
snapping configuration is never disabled. -/
theorem c9_snap_type_never_disabled (s : SnapSettings) :
    configuredSnapType s =
      match s.snap_vertices.getD true, s.snap_segments.getD true with
      | true, true => SnapType.vertexAndSegment
      | true, false => SnapType.vertex
      | false, true => SnapType.segment
      | false, false => SnapType.vertex := by
  unfold configuredSnapType
  cases hv : s.snap_vertices.getD true <;> cases hs : s.snap_segments.getD true <;> rfl

/-- C10: the legacy centroid_index property is a perfect alias of
point_index: reading it returns point_index, and assigning through it
updates point_index (and is read back through either name). -/
theorem c10_centroid_index_alias (b : IndexBundle) (v : Option SpatialIndex) :
    b.centroid_index = b.point_index
    ∧ (b.setCentroidIndex v).point_index = v
    ∧ (b.setCentroidIndex v).centroid_index = v :=
  ⟨rfl, rfl, rfl⟩

end SnapZen
